import Mathlib

/-!
Verification of the security core of wslshot (src/wslshot/cli.py) against its
natural-language specification.  The Python functions are shallowly embedded as
executable Lean definitions: paths are lists of components, file contents are
lists of bytes, the filesystem is an explicit value threaded through the
stateful operations, and Python exceptions are `Except` results.  External
libraries (pathlib's `resolve`, Pillow's decoder, the `json` module) are
modelled abstractly by the attributes the code reads from them.
-/

/- ====================  Constants (src/wslshot/cli.py lines 50-90)  ==================== -/

def CONFIG_FILE_PERMISSIONS : Nat := 0o600

def HARD_MAX_FILE_SIZE_BYTES : Int := 50 * 1024 * 1024

def HARD_MAX_TOTAL_SIZE_BYTES : Int := 200 * 1024 * 1024

def MAX_IMAGE_FILE_SIZE_BYTES : Nat := 50 * 1024 * 1024

def MAX_TOTAL_IMAGE_SIZE_BYTES : Nat := 200 * 1024 * 1024

def MAX_IMAGE_PIXELS : Nat := 89478485

def PNG_TRAILER : List Nat := [0x00, 0x00, 0x00, 0x00, 0x49, 0x45, 0x4e, 0x44, 0xae, 0x42, 0x60, 0x82]

def JPEG_TRAILER : List Nat := [0xff, 0xd9]

def GIF_TRAILER : List Nat := [0x3b]

/- ====================  Path resolver (resolve_path_safely, lines 397-447)  ============

An absolute path is its list of components from the filesystem root; `[]` is the
root itself.  `SymFS` is the lstat-level view the resolver queries: the kind of
the entry at each absolute path. -/

abbrev PathC := List String

inductive NodeKind where
  | dir
  | file
  | symlink
  | absent
  deriving DecidableEq

structure SymFS where
  kind : PathC → NodeKind

/-- `Path.is_symlink()` on an existing or missing entry (missing entries are not symlinks). -/
def isSymlink (fs : SymFS) (p : PathC) : Bool :=
  match fs.kind p with
  | NodeKind.symlink => true
  | _ => false

/-- The nonempty prefixes of `p` in increasing length (shallowest first). -/
def strictInits : List String → List PathC
  | [] => []
  | c :: rest => [c] :: (strictInits rest).map (fun q => c :: q)

/-- The sequence of paths visited by the `while current != current.parent` walk in
`resolve_path_safely`: the path itself, then each ancestor up to (excluding) the root. -/
def parentChain (p : PathC) : List PathC :=
  (strictInits p).reverse

inductive ResolveError where
  | symlinkRejected
  | symlinkInAncestor
  | notFound
  deriving DecidableEq

/-- Embedding of `resolve_path_safely` (cli.py lines 397-447).  `resolveFn` stands for
pathlib's `Path.resolve(strict=True)`: `none` models `FileNotFoundError`.  The home
expansion and `absolute()` are the identity here because inputs are already absolute. -/
def resolve_path_safely (fs : SymFS) (resolveFn : PathC → Option PathC) (p : PathC)
    (check_symlink : Bool) : Except ResolveError PathC :=
  if check_symlink && isSymlink fs p then
    Except.error ResolveError.symlinkRejected
  else if check_symlink && (parentChain p).any (fun q => isSymlink fs q) then
    Except.error ResolveError.symlinkInAncestor
  else
    match resolveFn p with
    | some r => Except.ok r
    | none => Except.error ResolveError.notFound

/-- C1: if any component of `p` (the final component or any ancestor up to the root,
i.e. any element of the parent chain) is a symlink, `resolve_path_safely` with
`check_symlink = true` raises a symlink security error and never returns a resolved
path, whatever `Path.resolve` would have produced; with `check_symlink = false`
no symlink rejection ever occurs. -/
theorem resolve_path_safely_symlink_spec (fs : SymFS) (resolveFn : PathC → Option PathC)
    (p : PathC) :
    ((∃ q, q ∈ parentChain p ∧ isSymlink fs q = true) →
      (resolve_path_safely fs resolveFn p true = Except.error ResolveError.symlinkRejected ∨
       resolve_path_safely fs resolveFn p true = Except.error ResolveError.symlinkInAncestor) ∧
      ∀ r, resolve_path_safely fs resolveFn p true ≠ Except.ok r) ∧
    (resolve_path_safely fs resolveFn p false ≠ Except.error ResolveError.symlinkRejected ∧
     resolve_path_safely fs resolveFn p false ≠ Except.error ResolveError.symlinkInAncestor) := by
  constructor
  · rintro ⟨q, hq, hsym⟩
    have hchain : (parentChain p).any (fun q => isSymlink fs q) = true :=
      List.any_eq_true.mpr ⟨q, hq, hsym⟩
    unfold resolve_path_safely
    by_cases hp : isSymlink fs p
    · simp [hp]
    · simp [hp, hchain]
  · unfold resolve_path_safely
    simp only [Bool.false_and, if_false]
    cases resolveFn p <;> simp

/-- Concrete run of the C1 property: `/tmp/link` is a symlink, so resolving
`/tmp/link/id_rsa` is rejected before any resolution happens. -/
theorem resolve_path_safely_symlink_witness :
    (resolve_path_safely
        ⟨fun p => if p = ["tmp", "link"] then NodeKind.symlink
                  else if p = ["tmp"] then NodeKind.dir else NodeKind.absent⟩
        (fun p => some p) ["tmp", "link", "id_rsa"] true =
          Except.error ResolveError.symlinkRejected ∨
     resolve_path_safely
        ⟨fun p => if p = ["tmp", "link"] then NodeKind.symlink
                  else if p = ["tmp"] then NodeKind.dir else NodeKind.absent⟩
        (fun p => some p) ["tmp", "link", "id_rsa"] true =
          Except.error ResolveError.symlinkInAncestor) :=
  (resolve_path_safely_symlink_spec
      ⟨fun p => if p = ["tmp", "link"] then NodeKind.symlink
                else if p = ["tmp"] then NodeKind.dir else NodeKind.absent⟩
      (fun p => some p) ["tmp", "link", "id_rsa"]).1
    ⟨["tmp", "link"], by decide, by decide⟩ |>.1

/- ====================  Size limit resolver (get_size_limits, lines 808-848)  =========

Configuration values come from a JSON document loaded by Python, so a setting is an
int or float (modelled as a rational), a bool (which Python treats as an int
subclass: `isinstance(True, int)` holds and `True == 1`), a string, or null. -/

inductive PyValue where
  | num (q : ℚ)
  | bool (b : Bool)
  | str (s : String)
  | null
  deriving DecidableEq

/-- `isinstance(x, (int, float))` together with the numeric value Python would use;
Python bools pass this check with `True = 1`, `False = 0`. -/
def numericValue : PyValue → Option ℚ
  | PyValue.num q => some q
  | PyValue.bool b => some (if b then 1 else 0)
  | _ => none

/-- The two entries of the config dict that `get_size_limits` reads via `config.get`;
`none` models a missing key. -/
structure SizeConfig where
  max_file_size_mb : Option PyValue
  max_total_size_mb : Option PyValue
  deriving DecidableEq

/-- Embedding of `get_size_limits` (cli.py lines 808-848).  `Int.floor` is Python's
`int()` truncation, applied only to positive values where the two agree. -/
def get_size_limits (config : SizeConfig) : Int × Option Int :=
  let file_limit_mb := config.max_file_size_mb.getD (PyValue.num 50)
  let total_limit_mb := config.max_total_size_mb.getD (PyValue.num 200)
  let file_limit_bytes : Int :=
    match numericValue file_limit_mb with
    | some q => if 0 < q then Int.floor (q * 1048576) else (MAX_IMAGE_FILE_SIZE_BYTES : Int)
    | none => (MAX_IMAGE_FILE_SIZE_BYTES : Int)
  let file_limit_bytes := min file_limit_bytes HARD_MAX_FILE_SIZE_BYTES
  let total_limit_bytes : Option Int :=
    match numericValue total_limit_mb with
    | some q =>
        if 0 < q then some (min (Int.floor (q * 1048576)) HARD_MAX_TOTAL_SIZE_BYTES)
        else some HARD_MAX_TOTAL_SIZE_BYTES
    | none => some (MAX_TOTAL_IMAGE_SIZE_BYTES : Int)
  (file_limit_bytes, total_limit_bytes)

/-- C3 (counterexample): a boolean is a wrong-typed (non-numeric) JSON value for the
size settings — the repository's own `normalize_int` raises `TypeError` on bools —
yet `get_size_limits` treats Python `True` as the number 1 because `isinstance(True,
int)` holds: the aggregate limit becomes 1MB instead of the hard maximum and the file
limit becomes 1MB instead of the fixed default. -/
theorem get_size_limits_bool_true_counterexample :
    get_size_limits ⟨some (PyValue.bool true), some (PyValue.bool true)⟩ =
      (1048576, some 1048576) ∧
    (1048576 : Int) ≠ HARD_MAX_TOTAL_SIZE_BYTES ∧
    (1048576 : Int) ≠ (MAX_IMAGE_FILE_SIZE_BYTES : Int) := by
  refine ⟨?_, by decide, by decide⟩
  have hfloor : Int.floor ((1 : ℚ) * 1048576) = (1048576 : Int) := by
    norm_num
  simp only [get_size_limits, numericValue, Option.getD, if_true, hfloor]
  norm_num [HARD_MAX_FILE_SIZE_BYTES, HARD_MAX_TOTAL_SIZE_BYTES]

/-- C3 (amended): for every configuration the per-file limit is at most the hard
maximum and the aggregate limit is a present integer at most its hard maximum; for
every `max_total_size_mb` that is zero, negative, or non-numeric — where Python
counts booleans as numbers (`True` is 1) — the aggregate limit is the hard maximum,
and for every non-positive or non-numeric `max_file_size_mb` the file limit is the
fixed default. -/
theorem get_size_limits_clamped (config : SizeConfig) :
    (get_size_limits config).1 ≤ HARD_MAX_FILE_SIZE_BYTES ∧
    (∃ t, (get_size_limits config).2 = some t ∧ t ≤ HARD_MAX_TOTAL_SIZE_BYTES) ∧
    (∀ v, config.max_total_size_mb = some v →
      (∀ q, numericValue v = some q → q ≤ 0) →
      (get_size_limits config).2 = some HARD_MAX_TOTAL_SIZE_BYTES) ∧
    (∀ v, config.max_file_size_mb = some v →
      (∀ q, numericValue v = some q → q ≤ 0) →
      (get_size_limits config).1 = (MAX_IMAGE_FILE_SIZE_BYTES : Int)) := by
  obtain ⟨mf, mt⟩ := config
  have hmax : (MAX_TOTAL_IMAGE_SIZE_BYTES : Int) = HARD_MAX_TOTAL_SIZE_BYTES := by decide
  have hfile : (MAX_IMAGE_FILE_SIZE_BYTES : Int) = HARD_MAX_FILE_SIZE_BYTES := by decide
  refine ⟨?_, ?_, ?_, ?_⟩
  · simp only [get_size_limits]
    exact min_le_right _ _
  · simp only [get_size_limits]
    rcases h : numericValue ((mt.getD (PyValue.num 200))) with _ | q
    · exact ⟨_, rfl, le_of_eq hmax⟩
    · by_cases hq : 0 < q
      · simp only [if_pos hq]
        exact ⟨_, rfl, min_le_right _ _⟩
      · simp only [if_neg hq]
        exact ⟨_, rfl, le_refl _⟩
  · rintro v rfl hv
    simp only [get_size_limits, Option.getD]
    rcases h : numericValue v with _ | q
    · simp only [hmax]
    · have : q ≤ 0 := hv q h
      simp only [if_neg (not_lt.mpr this)]
  · rintro v rfl hv
    simp only [get_size_limits, Option.getD]
    rcases h : numericValue v with _ | q
    · simp [hfile]
    · have hq : ¬ 0 < q := not_lt.mpr (hv q h)
      simp [hq, hfile]

/-- Concrete run of the amended C3: a string-typed file limit and a null aggregate
limit both fall back to the safe values. -/
theorem get_size_limits_clamped_witness :
    (get_size_limits ⟨some (PyValue.str "invalid"), some PyValue.null⟩).2 =
      some HARD_MAX_TOTAL_SIZE_BYTES ∧
    (get_size_limits ⟨some (PyValue.str "invalid"), some PyValue.null⟩).1 =
      (MAX_IMAGE_FILE_SIZE_BYTES : Int) :=
  ⟨(get_size_limits_clamped ⟨some (PyValue.str "invalid"), some PyValue.null⟩).2.2.1
      PyValue.null rfl (fun q hq => by simp [numericValue] at hq),
   (get_size_limits_clamped ⟨some (PyValue.str "invalid"), some PyValue.null⟩).2.2.2
      (PyValue.str "invalid") rfl (fun q hq => by simp [numericValue] at hq)⟩

/- ====================  Image content validator (validate_image_file, lines 709-805)  =

A candidate file is its complete byte stream plus what Pillow's decoder reports for
it: `decoded = none` models `UnidentifiedImageError` (content is not a decodable
image), `some (fmt, w, h)` the detected format and pixel dimensions.  The extension
plays no role: the Python function only uses `file_path.name` inside messages.
`warnings.filterwarnings("error", DecompressionBombWarning)` makes Pillow's
oversize-image warning (fired inside `Image.open` when `w * h` exceeds
`MAX_IMAGE_PIXELS`) an exception, caught and converted to the dimensions error. -/

inductive PilFormat where
  | png
  | jpeg
  | gif
  | webp
  | bmp
  deriving DecidableEq

structure ImageFile where
  bytes : List Nat
  decoded : Option (PilFormat × Nat × Nat)
  deriving DecidableEq

inductive ValidationFailure where
  | tooLarge
  | notValidImage
  | unsupportedFormat
  | dimensionsTooLarge
  | trailingData
  deriving DecidableEq

/-- Embedding of `validate_image_file` (cli.py lines 709-805), check for check in
source order: size ceiling, decodability (`Image.open`), the escalated
decompression-bomb warning, the format allow-list, the explicit pixel ceiling
(unreachable after the escalated warning, kept for fidelity), then the trailer
checks. -/
def validate_image_file (f : ImageFile) (max_size_bytes : Option Nat)
    (file_size : Option Nat) : Except ValidationFailure Bool :=
  let max_size := max_size_bytes.getD MAX_IMAGE_FILE_SIZE_BYTES
  let size_value := file_size.getD f.bytes.length
  if size_value > max_size then Except.error ValidationFailure.tooLarge
  else
    match f.decoded with
    | none => Except.error ValidationFailure.notValidImage
    | some (fmt, w, h) =>
      if w * h > MAX_IMAGE_PIXELS then Except.error ValidationFailure.dimensionsTooLarge
      else if fmt ≠ PilFormat.png ∧ fmt ≠ PilFormat.jpeg ∧ fmt ≠ PilFormat.gif then
        Except.error ValidationFailure.unsupportedFormat
      else if w * h > MAX_IMAGE_PIXELS then Except.error ValidationFailure.dimensionsTooLarge
      else if fmt = PilFormat.png ∧ PNG_TRAILER.isSuffixOf f.bytes = false then
        Except.error ValidationFailure.trailingData
      else if fmt = PilFormat.jpeg ∧ JPEG_TRAILER.isSuffixOf f.bytes = false then
        Except.error ValidationFailure.trailingData
      else if fmt = PilFormat.gif ∧ GIF_TRAILER.isSuffixOf f.bytes = false then
        Except.error ValidationFailure.trailingData
      else Except.ok true

/-- C4: any file whose decoded pixel count exceeds the fixed ceiling is rejected with
the dimensions-too-large kind whenever its byte size is within the per-file limit —
the decoder's bomb warning is escalated to a hard failure, for every format Pillow
can decode. -/
theorem validate_image_file_rejects_bombs (f : ImageFile) (fmt : PilFormat) (w h : Nat)
    (ms fsz : Option Nat)
    (hdec : f.decoded = some (fmt, w, h))
    (hpix : w * h > MAX_IMAGE_PIXELS)
    (hsize : fsz.getD f.bytes.length ≤ ms.getD MAX_IMAGE_FILE_SIZE_BYTES) :
    validate_image_file f ms fsz = Except.error ValidationFailure.dimensionsTooLarge := by
  simp only [validate_image_file, hdec, not_lt.mpr hsize, gt_iff_lt, if_false, if_neg (not_lt.mpr hsize)]
  simp [hpix]

/-- Concrete run of C4: a tiny (3-byte) file that decodes to 9500x9500 pixels is
rejected as a decompression bomb under the default limits. -/
theorem validate_image_file_rejects_bombs_witness :
    validate_image_file ⟨[1, 2, 3], some (PilFormat.png, 9500, 9500)⟩ none none =
      Except.error ValidationFailure.dimensionsTooLarge :=
  validate_image_file_rejects_bombs ⟨[1, 2, 3], some (PilFormat.png, 9500, 9500)⟩
    PilFormat.png 9500 9500 none none rfl (by decide) (by decide)

/-- C5: acceptance is decided by content, never by extension — a file whose content
does not decode as an image is never accepted and, whenever its size passes the
ceiling, fails with the not-a-valid-image kind; content that decodes to a format
outside the allow-list is never accepted and (within the size and pixel ceilings)
fails with the unsupported-format kind. -/
theorem validate_image_file_content_spec (f : ImageFile) :
    (f.decoded = none →
      (∀ ms fsz, validate_image_file f ms fsz ≠ Except.ok true) ∧
      (∀ ms fsz, fsz.getD f.bytes.length ≤ ms.getD MAX_IMAGE_FILE_SIZE_BYTES →
        validate_image_file f ms fsz = Except.error ValidationFailure.notValidImage)) ∧
    (∀ fmt w h, f.decoded = some (fmt, w, h) →
      fmt ≠ PilFormat.png → fmt ≠ PilFormat.jpeg → fmt ≠ PilFormat.gif →
      (∀ ms fsz, validate_image_file f ms fsz ≠ Except.ok true) ∧
      (∀ ms fsz, fsz.getD f.bytes.length ≤ ms.getD MAX_IMAGE_FILE_SIZE_BYTES →
        w * h ≤ MAX_IMAGE_PIXELS →
        validate_image_file f ms fsz = Except.error ValidationFailure.unsupportedFormat)) := by
  constructor
  · intro hdec
    constructor
    · intro ms fsz
      simp only [validate_image_file, hdec]
      split <;> simp
    · intro ms fsz hsize
      simp only [validate_image_file, hdec]
      simp [not_lt.mpr hsize]
  · intro fmt w h hdec h1 h2 h3
    constructor
    · intro ms fsz
      simp only [validate_image_file, hdec]
      split
      · simp
      · split
        · simp
        · simp [h1, h2, h3]
    · intro ms fsz hsize hpix
      simp only [validate_image_file, hdec]
      rw [if_neg (not_lt.mpr hsize)]
      simp [not_lt.mpr hpix, h1, h2, h3]

/-- Concrete run of C5: a shell script saved with an image extension (content
starting `#!`, not decodable) is rejected as not a valid image. -/
theorem validate_image_file_content_witness :
    validate_image_file ⟨[35, 33, 47, 98, 105, 110], none⟩ none none =
      Except.error ValidationFailure.notValidImage :=
  ((validate_image_file_content_spec ⟨[35, 33, 47, 98, 105, 110], none⟩).1 rfl).2
    none none (by decide)

/-- The exact trailer byte sequence the validator requires for each allowed format. -/
def formatTrailer : PilFormat → List Nat
  | PilFormat.png => PNG_TRAILER
  | PilFormat.jpeg => JPEG_TRAILER
  | PilFormat.gif => GIF_TRAILER
  | _ => []

/-- C6 (counterexample): the trailer check is only `endswith`, so a valid PNG (its
bytes already end with `PNG_TRAILER`) with a further copy of the trailer bytes
appended — nonempty extra data after the image's logical end — is accepted, refuting
"a valid image with any extra bytes appended after its trailer is always rejected". -/
theorem validate_image_file_trailing_counterexample :
    validate_image_file
      ⟨([137, 80, 78, 71, 13, 10, 26, 10] ++ PNG_TRAILER) ++ PNG_TRAILER,
        some (PilFormat.png, 1, 1)⟩ none none = Except.ok true ∧
    PNG_TRAILER ≠ ([] : List Nat) ∧
    PNG_TRAILER.isSuffixOf ([137, 80, 78, 71, 13, 10, 26, 10] ++ PNG_TRAILER) = true := by
  exact ⟨rfl, by decide, by decide⟩

/-- C6 (amended): for a file that decodes as PNG, JPEG, or GIF and passes the size
and pixel checks, `validate_image_file` raises the trailing-data error exactly when
the complete byte stream does not end with that format's trailer bytes — so appended
extra bytes are rejected if and only if the resulting stream no longer ends with the
trailer sequence. -/
theorem validate_image_file_trailer_spec (f : ImageFile) (fmt : PilFormat) (w h : Nat)
    (ms fsz : Option Nat)
    (hdec : f.decoded = some (fmt, w, h))
    (hfmt : fmt = PilFormat.png ∨ fmt = PilFormat.jpeg ∨ fmt = PilFormat.gif)
    (hsize : fsz.getD f.bytes.length ≤ ms.getD MAX_IMAGE_FILE_SIZE_BYTES)
    (hpix : w * h ≤ MAX_IMAGE_PIXELS) :
    (validate_image_file f ms fsz = Except.error ValidationFailure.trailingData ↔
      (formatTrailer fmt).isSuffixOf f.bytes = false) ∧
    (validate_image_file f ms fsz = Except.ok true ↔
      (formatTrailer fmt).isSuffixOf f.bytes = true) := by
  rcases hfmt with rfl | rfl | rfl
  · simp only [validate_image_file, hdec, formatTrailer]
    rw [if_neg (not_lt.mpr hsize)]
    rcases ht : PNG_TRAILER.isSuffixOf f.bytes with _ | _ <;>
      simp [not_lt.mpr hpix, ht, List.isSuffixOf_iff_suffix]
  · simp only [validate_image_file, hdec, formatTrailer]
    rw [if_neg (not_lt.mpr hsize)]
    rcases ht : JPEG_TRAILER.isSuffixOf f.bytes with _ | _ <;>
      simp [not_lt.mpr hpix, ht, List.isSuffixOf_iff_suffix]
  · simp only [validate_image_file, hdec, formatTrailer]
    rw [if_neg (not_lt.mpr hsize)]
    rcases ht : GIF_TRAILER.isSuffixOf f.bytes with _ | _ <;>
      simp [not_lt.mpr hpix, ht, List.isSuffixOf_iff_suffix]

/-- Concrete run of the amended C6: a PNG whose bytes do not end with the PNG trailer
is rejected with the trailing-data kind. -/
theorem validate_image_file_trailer_witness :
    validate_image_file ⟨[137, 80], some (PilFormat.png, 1, 1)⟩ none none =
      Except.error ValidationFailure.trailingData :=
  (validate_image_file_trailer_spec ⟨[137, 80], some (PilFormat.png, 1, 1)⟩
      PilFormat.png 1 1 none none rfl (Or.inl rfl) (by decide) (by decide)).1.mpr
    (by decide)

/- ====================  Error sanitizer (lines 611-706)  ==============================

Python strings are lists of characters.  `pyReplace` is Python's `str.replace` for a
nonempty pattern: a left-to-right scan replacing each non-overlapping occurrence.
The scan is written with an explicit step budget equal to the scanned length (each
step consumes at least one character, so the budget is never exhausted); the empty
pattern corner of `str.replace` is not exercised because every replaced pattern is
the string of a path. -/

abbrev PyStr := List Char

def replaceAllGo (old new : PyStr) : Nat → PyStr → PyStr
  | 0, s => s
  | _ + 1, [] => []
  | fuel + 1, c :: rest =>
    if old ≠ [] ∧ old.isPrefixOf (c :: rest) = true then
      new ++ replaceAllGo old new fuel ((c :: rest).drop old.length)
    else
      c :: replaceAllGo old new fuel rest

def pyReplace (s old new : PyStr) : PyStr :=
  replaceAllGo old new s.length s

/-- Python `str.rstrip("/")`. -/
def rstripSlashes (s : PyStr) : PyStr :=
  (s.reverse.dropWhile (fun c => c = '/')).reverse

/-- Python `str.split("/")` (always returns at least one group). -/
def splitOnSlash : PyStr → List PyStr
  | [] => [[]]
  | c :: rest =>
    match splitOnSlash rest with
    | [] => [[]]
    | g :: gs => if c = '/' then [] :: g :: gs else (c :: g) :: gs

/-- Embedding of `sanitize_path_for_error` (cli.py lines 611-654): normalize both
separator styles, strip trailing slashes, and reveal only the basename. -/
def sanitize_path_for_error (path : PyStr) (show_basename : Bool) : PyStr :=
  if show_basename = false then "<path>".toList
  else if path = [] then "<path>".toList
  else
    let normalized := rstripSlashes (pyReplace path ['\\'] ['/'])
    let basename := if normalized = [] then [] else (splitOnSlash normalized).getLastD []
    if basename = [] ∨ basename = ['.'] then "<path>".toList
    else "<...>/".toList ++ basename

/-- Embedding of `sanitize_error_message` (cli.py lines 683-706): literal replacement
of each path string, in sequence. -/
def sanitize_error_message (message : PyStr) (paths : List PyStr) (show_basename : Bool) :
    PyStr :=
  paths.foldl (fun acc p => pyReplace acc p (sanitize_path_for_error p show_basename)) message

/-- C9 (counterexample): the message embeds the sensitive path in backslash style
while the path value uses POSIX separators; `str.replace` matches only the literal
path string, so nothing is replaced and the directory segment `Users` (and the
username `alice`) survive in the output. -/
theorem sanitize_error_message_cross_style_counterexample :
    (pyReplace "C:/Users/alice/secret.txt".toList ['/'] ['\\']) <:+:
        "Failed to open C:\\Users\\alice\\secret.txt".toList ∧
    sanitize_error_message "Failed to open C:\\Users\\alice\\secret.txt".toList
        ["C:/Users/alice/secret.txt".toList] true =
      "Failed to open C:\\Users\\alice\\secret.txt".toList ∧
    "Users".toList <:+:
        (sanitize_error_message "Failed to open C:\\Users\\alice\\secret.txt".toList
          ["C:/Users/alice/secret.txt".toList] true) := by
  exact ⟨by decide, by decide, by decide⟩

/-- The step budget is irrelevant once it covers the scanned length. -/
theorem replaceAllGo_fuel (old new : PyStr) :
    ∀ fuel1 fuel2 s, s.length ≤ fuel1 → s.length ≤ fuel2 →
      replaceAllGo old new fuel1 s = replaceAllGo old new fuel2 s := by
  intro fuel1
  induction fuel1 with
  | zero =>
    intro fuel2 s h1 _
    have hs : s = [] := List.length_eq_zero.mp (Nat.le_zero.mp h1)
    subst hs
    cases fuel2 <;> simp [replaceAllGo]
  | succ f ih =>
    intro fuel2 s h1 h2
    cases s with
    | nil => cases fuel2 <;> simp [replaceAllGo]
    | cons c rest =>
      cases fuel2 with
      | zero => simp at h2
      | succ f2 =>
        simp only [replaceAllGo]
        have hlen : rest.length ≤ f := by simpa using h1
        have hlen2 : rest.length ≤ f2 := by simpa using h2
        by_cases hcond : old ≠ [] ∧ old.isPrefixOf (c :: rest) = true
        · rw [if_pos hcond, if_pos hcond]
          have hop : 0 < old.length := List.length_pos.mpr hcond.1
          have hd : ((c :: rest).drop old.length).length ≤ f := by
            rw [List.length_drop]
            simp only [List.length_cons]
            omega
          have hd2 : ((c :: rest).drop old.length).length ≤ f2 := by
            rw [List.length_drop]
            simp only [List.length_cons]
            omega
          rw [ih f2 _ hd hd2]
        · rw [if_neg hcond, if_neg hcond, ih f2 rest hlen hlen2]

/-- `str.replace` rewrites an occurrence not preceded by any earlier match and
continues scanning after it. -/
theorem pyReplace_append (p new : PyStr) (hp : p ≠ []) :
    ∀ a b, (∀ i, i < a.length → p.isPrefixOf ((a ++ p ++ b).drop i) = false) →
      pyReplace (a ++ p ++ b) p new = a ++ new ++ pyReplace b p new := by
  intro a
  induction a with
  | nil =>
    intro b _
    simp only [List.nil_append]
    obtain ⟨c, p', hps⟩ : ∃ c p', p = c :: p' := by
      cases p with
      | nil => exact absurd rfl hp
      | cons c p' => exact ⟨c, p', rfl⟩
    subst hps
    rw [pyReplace]
    simp only [List.cons_append, List.length_cons, replaceAllGo, List.append_eq,
      List.drop_succ_cons, List.drop_left]
    have hc : c :: p' ≠ [] ∧ (c :: p').isPrefixOf (c :: (p' ++ b)) = true := by
      refine ⟨hp, ?_⟩
      rw [← List.cons_append]
      exact List.isPrefixOf_iff_prefix.mpr (List.prefix_append _ b)
    rw [if_pos hc]
    rw [replaceAllGo_fuel (c :: p') new (p' ++ b).length b.length b (by simp) (le_refl _)]
    simp [pyReplace]
  | cons c a' ih =>
    intro b h
    have h0 : p.isPrefixOf (c :: (a' ++ p ++ b)) = false := by
      have h' := h 0 (by simp)
      simpa only [List.cons_append, List.drop_zero] using h'
    have hstep : ∀ i, i < a'.length → p.isPrefixOf ((a' ++ p ++ b).drop i) = false := by
      intro i hi
      have h' := h (i + 1) (by simp only [List.length_cons]; omega)
      simpa only [List.cons_append, List.drop_succ_cons] using h'
    have hrec := ih b hstep
    show pyReplace ((c :: a') ++ p ++ b) p new = (c :: a') ++ new ++ pyReplace b p new
    rw [pyReplace]
    simp only [List.cons_append, List.length_cons, replaceAllGo, List.append_eq]
    rw [if_neg (fun hcond => by rw [hcond.2] at h0; cases h0)]
    rw [pyReplace] at hrec
    rw [hrec]

/-- C9 (amended): `sanitize_error_message` performs literal substring replacement of
each path string exactly as given: the first occurrence of the path (not preceded by
an earlier match) is replaced by the sanitized form revealing only the basename, and
scanning continues after it.  Occurrences written in the other separator style are
not matched (counterexample above), and the normalization of both separator styles
happens only inside `sanitize_path_for_error` when the basename is extracted. -/
theorem sanitize_error_message_literal_spec (a p b : PyStr) (hp : p ≠ [])
    (ha : ∀ i, i < a.length → p.isPrefixOf ((a ++ p ++ b).drop i) = false) :
    sanitize_error_message (a ++ p ++ b) [p] true =
      a ++ sanitize_path_for_error p true ++
        pyReplace b p (sanitize_path_for_error p true) := by
  simpa [sanitize_error_message] using
    pyReplace_append p (sanitize_path_for_error p true) hp a b ha

/-- Concrete run of the amended C9: a POSIX-style path occurring literally in the
message is replaced by its sanitized basename form. -/
theorem sanitize_error_message_literal_witness :
    sanitize_error_message
        ("open ".toList ++ "/home/alice/x.txt".toList ++ " failed".toList)
        ["/home/alice/x.txt".toList] true =
      "open ".toList ++ sanitize_path_for_error "/home/alice/x.txt".toList true ++
        pyReplace " failed".toList "/home/alice/x.txt".toList
          (sanitize_path_for_error "/home/alice/x.txt".toList true) :=
  sanitize_error_message_literal_spec "open ".toList "/home/alice/x.txt".toList
    " failed".toList (by decide) (by decide)

/- ====================  copy_screenshots (lines 1158-1236)  ===========================

Each candidate is the file (as seen by the validator) plus the outcomes of the two
filesystem calls the loop makes on it: `statOk = false` models the `OSError` from
`Path.stat` (skipped with a warning), `copyOk = false` the `OSError` from
`shutil.copy` (re-raised as `ValueError`, aborting the run).  The copies themselves
are modelled by the byte sizes of the copied files, in copy order; an aborting run's
error payload carries the files already copied before the abort. -/

structure ScreenshotCandidate where
  image : ImageFile
  statOk : Bool
  copyOk : Bool
  deriving DecidableEq

/-- The `for screenshot in screenshots` loop of `copy_screenshots`, carrying
`total_size` and the copied files so far. -/
def copy_screenshots_loop (per_file_limit total_limit : Option Nat) :
    List ScreenshotCandidate → Nat → List Nat → Except (List Nat) (List Nat)
  | [], _, copied => Except.ok copied
  | s :: rest, total_size, copied =>
    if s.statOk = false then
      copy_screenshots_loop per_file_limit total_limit rest total_size copied
    else
      match validate_image_file s.image per_file_limit (some s.image.bytes.length) with
      | Except.error _ =>
          copy_screenshots_loop per_file_limit total_limit rest total_size copied
      | Except.ok _ =>
          let new_total := total_size + s.image.bytes.length
          match total_limit with
          | some t =>
              if new_total > t then Except.ok copied
              else if s.copyOk = false then Except.error copied
              else copy_screenshots_loop per_file_limit total_limit rest new_total
                    (copied ++ [s.image.bytes.length])
          | none =>
              if s.copyOk = false then Except.error copied
              else copy_screenshots_loop per_file_limit total_limit rest new_total
                    (copied ++ [s.image.bytes.length])

/-- Embedding of `copy_screenshots` (cli.py lines 1158-1236). -/
def copy_screenshots (screenshots : List ScreenshotCandidate)
    (max_file_size_bytes max_total_size_bytes : Option Nat) :
    Except (List Nat) (List Nat) :=
  copy_screenshots_loop max_file_size_bytes max_total_size_bytes screenshots 0 []

/-- The sizes of the files actually copied, whether the run completed or aborted. -/
def copiedSizes : Except (List Nat) (List Nat) → List Nat
  | Except.ok l => l
  | Except.error l => l

/-- Loop invariant: the running total equals the sum of the copied sizes, and a copy
only happens when the total including the candidate stays within the limit. -/
theorem copy_screenshots_loop_bound (pfl : Option Nat) (t : Nat) :
    ∀ l total copied, copied.sum = total → total ≤ t →
      (copiedSizes (copy_screenshots_loop pfl (some t) l total copied)).sum ≤ t := by
  intro l
  induction l with
  | nil =>
    intro total copied hsum hle
    simpa [copy_screenshots_loop, copiedSizes, hsum] using hle
  | cons s rest ih =>
    intro total copied hsum hle
    simp only [copy_screenshots_loop]
    by_cases hstat : s.statOk = false
    · rw [if_pos hstat]
      exact ih total copied hsum hle
    · rw [if_neg hstat]
      cases hval : validate_image_file s.image pfl (some s.image.bytes.length) with
      | error e => exact ih total copied hsum hle
      | ok v =>
        simp only
        by_cases hover : total + s.image.bytes.length > t
        · rw [if_pos hover]
          simpa [copiedSizes, hsum] using hle
        · rw [if_neg hover]
          by_cases hcopy : s.copyOk = false
          · rw [if_pos hcopy]
            simpa [copiedSizes, hsum] using hle
          · rw [if_neg hcopy]
            exact ih (total + s.image.bytes.length) (copied ++ [s.image.bytes.length])
              (by simp [hsum]) (not_lt.mp hover)

/-- C10: with a present aggregate limit, the sum of the byte sizes of the files
`copy_screenshots` actually copies never exceeds the limit: a candidate is copied
only while the running total including it stays within the limit, and the first
candidate that would push the total over it ends the loop with the remaining
candidates skipped. -/
theorem copy_screenshots_total_bound (screenshots : List ScreenshotCandidate)
    (max_file_size_bytes : Option Nat) (t : Nat) :
    (copiedSizes (copy_screenshots screenshots max_file_size_bytes (some t))).sum ≤ t :=
  copy_screenshots_loop_bound max_file_size_bytes t screenshots 0 [] rfl (Nat.zero_le t)

/- ====================  Atomic configuration writer (atomic_write_json, lines 275-335)

A configuration document is the flat JSON object as a key/value list (the `json`
module is modelled by storing the document itself: `json.dump` writes it, `json.load`
reads it back, and `FileContent.invalid` stands for bytes that fail `json.load`).
The filesystem state carries the target file and the `mkstemp` temporary file (its
written content and the mode set on it).  `fails` says which of the five operations
performed by `atomic_write_json` raise `OSError` on this run. -/

abbrev ConfigDoc := List (String × PyValue)

inductive FileContent where
  | json (doc : ConfigDoc)
  | invalid
  deriving DecidableEq

structure TempFile where
  content : Option ConfigDoc
  mode : Option Nat
  deriving DecidableEq

structure ConfigFS where
  target : Option FileContent
  temp : Option TempFile
  deriving DecidableEq

inductive WriteStep where
  | mkstemp
  | writeTemp
  | chmodTemp
  | rename
  | dirSync
  deriving DecidableEq

structure WriteOutcome where
  fs : ConfigFS
  raised : Bool
  durabilityWarning : Bool
  deriving DecidableEq

/-- Embedding of `atomic_write_json` (cli.py lines 275-335): create the temp file in
the target's directory, write and fsync the data, chmod the temp file, atomically
rename it onto the target; any failure before or at the rename unlinks the temp file
and re-raises; a directory-fsync failure after the rename only warns. -/
def atomic_write_json (fs : ConfigFS) (data : ConfigDoc) (mode : Nat)
    (fails : WriteStep → Bool) : WriteOutcome :=
  if fails WriteStep.mkstemp then ⟨fs, true, false⟩
  else
    let fs1 : ConfigFS := ⟨fs.target, some ⟨none, none⟩⟩
    if fails WriteStep.writeTemp then ⟨⟨fs1.target, none⟩, true, false⟩
    else
      let fs2 : ConfigFS := ⟨fs1.target, some ⟨some data, none⟩⟩
      if fails WriteStep.chmodTemp then ⟨⟨fs2.target, none⟩, true, false⟩
      else
        let fs3 : ConfigFS := ⟨fs2.target, some ⟨some data, some mode⟩⟩
        if fails WriteStep.rename then ⟨⟨fs3.target, none⟩, true, false⟩
        else
          let fs4 : ConfigFS := ⟨some (FileContent.json data), none⟩
          if fails WriteStep.dirSync then ⟨fs4, false, true⟩
          else ⟨fs4, false, false⟩

/-- The `open` + `json.load` step of `read_config` (cli.py lines 1457-1459):
`none` models `FileNotFoundError` or `json.JSONDecodeError`. -/
def json_load : Option FileContent → Option ConfigDoc
  | some (FileContent.json d) => some d
  | _ => none

/-- C2: writing a document through the atomic writer and loading the target back
yields the same document whenever the write reports success (including a failed
best-effort directory fsync), and on every failure before or at the atomic rename
the previous target generation is untouched while the temporary file is cleaned
up. -/
theorem atomic_write_json_round_trip (fs : ConfigFS) (data : ConfigDoc) (mode : Nat)
    (fails : WriteStep → Bool) (htemp : fs.temp = none) :
    ((atomic_write_json fs data mode fails).raised = false →
      json_load (atomic_write_json fs data mode fails).fs.target = some data ∧
      (atomic_write_json fs data mode fails).fs.temp = none) ∧
    ((atomic_write_json fs data mode fails).raised = true →
      (atomic_write_json fs data mode fails).fs.target = fs.target ∧
      (atomic_write_json fs data mode fails).fs.temp = none) := by
  unfold atomic_write_json
  split_ifs with h1 h2 h3 h4 h5 <;> simp [json_load, htemp]

/-- Concrete run of C2: a rename failure over an existing one-entry config leaves it
intact with the temp file gone, and the same write with no failures round-trips. -/
theorem atomic_write_json_round_trip_witness :
    ((atomic_write_json ⟨some (FileContent.json [("a", PyValue.num 1)]), none⟩
        [("k", PyValue.bool false)] 384
        (fun s => decide (s = WriteStep.rename))).fs.target =
      some (FileContent.json [("a", PyValue.num 1)]) ∧
     (atomic_write_json ⟨some (FileContent.json [("a", PyValue.num 1)]), none⟩
        [("k", PyValue.bool false)] 384
        (fun s => decide (s = WriteStep.rename))).fs.temp = none) ∧
    json_load (atomic_write_json ⟨some (FileContent.json [("a", PyValue.num 1)]), none⟩
        [("k", PyValue.bool false)] 384 (fun _ => false)).fs.target =
      some [("k", PyValue.bool false)] :=
  ⟨(atomic_write_json_round_trip ⟨some (FileContent.json [("a", PyValue.num 1)]), none⟩
      [("k", PyValue.bool false)] 384 (fun s => decide (s = WriteStep.rename)) rfl).2
      (by decide),
   ((atomic_write_json_round_trip ⟨some (FileContent.json [("a", PyValue.num 1)]), none⟩
      [("k", PyValue.bool false)] 384 (fun _ => false) rfl).1 (by decide)).1⟩

/- ====================  Config reading and validation (read_config, lines 1444-1487)  =

The documented defaults (CONFIG_FIELD_SPECS, cli.py lines 184-225). -/

def DEFAULT_CONFIG : ConfigDoc :=
  [("default_source", PyValue.str ""),
   ("default_destination", PyValue.str ""),
   ("auto_stage_enabled", PyValue.bool false),
   ("default_output_format", PyValue.str "markdown"),
   ("default_convert_to", PyValue.null),
   ("max_file_size_mb", PyValue.num 50),
   ("max_total_size_mb", PyValue.num 200)]

def KNOWN_KEYS : List String := DEFAULT_CONFIG.map Prod.fst

def VALID_OUTPUT_FORMATS : List String := ["markdown", "html", "text"]

def VALID_CONVERT_FORMATS : List String := ["png", "jpg", "jpeg", "webp", "gif"]

/-- `value.strip().lower().replace(".", "")` from `normalize_default_convert_to`. -/
def normalizeConvertString (s : String) : String :=
  (s.trim.toLower.toList.filter (fun c => c ≠ '.')).asString

/-- Modelled from the spec: the per-field check of the repository's `validate_config`,
which is not present under src/ (only its tests and the `ConfigurationError` it
raises are).  Types follow the documented schema — directories are strings,
auto-staging a bool, the output style one of a fixed small set, the conversion
target a valid format or none, the size ceilings numbers (the repository's
`normalize_int` rejects bools for these) — per spec section 6. -/
def fieldTypeOk (key : String) (v : PyValue) : Bool :=
  if key = "default_source" ∨ key = "default_destination" then
    match v with
    | PyValue.str _ => true
    | _ => false
  else if key = "auto_stage_enabled" then
    match v with
    | PyValue.bool _ => true
    | _ => false
  else if key = "default_output_format" then
    match v with
    | PyValue.str s => VALID_OUTPUT_FORMATS.contains s.toLower
    | _ => false
  else if key = "default_convert_to" then
    match v with
    | PyValue.null => true
    | PyValue.str s =>
        normalizeConvertString s == "" || VALID_CONVERT_FORMATS.contains (normalizeConvertString s)
    | _ => false
  else if key = "max_file_size_mb" ∨ key = "max_total_size_mb" then
    match v with
    | PyValue.num _ => true
    | _ => false
  else true

/-- Modelled from the spec: `validate_config` itself (missing from src/): "Missing
keys take documented defaults; unknown keys are ignored with a warning;
type-mismatched values cause the whole document to be rejected".  A present known
key with a failing value rejects the whole document (`ConfigurationError`);
otherwise the result has every known key, taking the document's value when present
and the default when missing, and drops unknown keys. -/
def validate_config (raw : ConfigDoc) : Except Unit ConfigDoc :=
  if raw.all (fun kv => !(KNOWN_KEYS.contains kv.1) || fieldTypeOk kv.1 kv.2) then
    Except.ok (KNOWN_KEYS.map (fun k =>
      (k, (raw.lookup k).getD ((DEFAULT_CONFIG.lookup k).getD PyValue.null))))
  else Except.error ()

/-- The unknown-keys warning `validate_config` emits. -/
def unknown_key_warning (raw : ConfigDoc) : Bool :=
  raw.any (fun kv => !(KNOWN_KEYS.contains kv.1))

/-- The config file and the `.corrupted` backup slots beside it. -/
structure ConfigStore where
  file : Option FileContent
  backups : List FileContent
  deriving DecidableEq

/-- Embedding of `read_config` (cli.py lines 1444-1487) in the non-interactive case,
with the validation step Modelled from the spec (see `validate_config`).  A document
failing `json.load` or validation is renamed aside by
`_backup_corrupted_file_or_warn` (lines 259-273, never deleted) and the defaults are
written back and returned; a valid document is returned normalized, with the
unknown-keys warning.  `none` models the propagated `FileNotFoundError`. -/
def read_config (store : ConfigStore) : Option (ConfigDoc × ConfigStore × Bool) :=
  match store.file with
  | none => none
  | some FileContent.invalid =>
      some (DEFAULT_CONFIG,
        ⟨some (FileContent.json DEFAULT_CONFIG), store.backups ++ [FileContent.invalid]⟩,
        false)
  | some (FileContent.json doc) =>
      match validate_config doc with
      | Except.error _ =>
          some (DEFAULT_CONFIG,
            ⟨some (FileContent.json DEFAULT_CONFIG),
             store.backups ++ [FileContent.json doc]⟩,
            false)
      | Except.ok normalized => some (normalized, store, unknown_key_warning doc)

theorem lookup_map_of_mem (f : String → PyValue) (l : List String) (k : String)
    (hk : k ∈ l) : (l.map (fun x => (x, f x))).lookup k = some (f k) := by
  induction l with
  | nil => cases hk
  | cons a l ih =>
    simp only [List.map, List.lookup]
    rcases hbeq : (k == a) with _ | _
    · have hne : k ≠ a := fun h => by simp [h] at hbeq
      exact ih ((List.mem_cons.mp hk).resolve_left hne)
    · have : k = a := eq_of_beq hbeq
      subst this
      rfl

theorem lookup_map_of_not_mem (f : String → PyValue) (l : List String) (k : String)
    (hk : k ∉ l) : (l.map (fun x => (x, f x))).lookup k = none := by
  induction l with
  | nil => rfl
  | cons a l ih =>
    simp only [List.map, List.lookup]
    have hne : k ≠ a := fun h => hk (h ▸ List.mem_cons_self a l)
    rcases hbeq : (k == a) with _ | _
    · exact ih (fun h => hk (List.mem_cons_of_mem a h))
    · exact absurd (eq_of_beq hbeq) hne

/-- C8 (spec-modelled): reading a parsed document holding a wrong-typed value for a
present known key rejects the whole document — the defaults are returned and
written, the corrupted original is renamed aside, never deleted; reading a
well-typed document returns it with every missing key taking its documented
default, unknown keys ignored (dropped, with the warning flag set exactly when one
was present). -/
theorem read_config_validation_spec (store : ConfigStore) (doc : ConfigDoc)
    (hfile : store.file = some (FileContent.json doc)) :
    (doc.all (fun kv => !(KNOWN_KEYS.contains kv.1) || fieldTypeOk kv.1 kv.2) = false →
      read_config store =
        some (DEFAULT_CONFIG,
          ⟨some (FileContent.json DEFAULT_CONFIG),
           store.backups ++ [FileContent.json doc]⟩,
          false)) ∧
    (doc.all (fun kv => !(KNOWN_KEYS.contains kv.1) || fieldTypeOk kv.1 kv.2) = true →
      ∃ n, read_config store = some (n, store, unknown_key_warning doc) ∧
        (∀ k, k ∈ KNOWN_KEYS →
          n.lookup k =
            some ((doc.lookup k).getD ((DEFAULT_CONFIG.lookup k).getD PyValue.null))) ∧
        (∀ k, k ∉ KNOWN_KEYS → n.lookup k = none)) := by
  constructor
  · intro hbad
    have hcond : ¬ ((doc.all fun kv => !(KNOWN_KEYS.contains kv.1) || fieldTypeOk kv.1 kv.2) = true) := by
      rw [hbad]
      exact Bool.false_ne_true
    have hv : validate_config doc = Except.error () := if_neg hcond
    unfold read_config
    simp only [hfile, hv]
  · intro hgood
    refine ⟨KNOWN_KEYS.map (fun k =>
      (k, (doc.lookup k).getD ((DEFAULT_CONFIG.lookup k).getD PyValue.null))), ?_, ?_, ?_⟩
    · have hv : validate_config doc =
          Except.ok (KNOWN_KEYS.map (fun k =>
            (k, (doc.lookup k).getD ((DEFAULT_CONFIG.lookup k).getD PyValue.null)))) :=
        if_pos hgood
      unfold read_config
      simp only [hfile, hv]
    · intro k hk
      exact lookup_map_of_mem _ KNOWN_KEYS k hk
    · intro k hk
      exact lookup_map_of_not_mem _ KNOWN_KEYS k hk

/-- Concrete run of C8: a config whose `auto_stage_enabled` holds a string is
rejected whole — the original is kept as a backup and the defaults take its place. -/
theorem read_config_validation_witness :
    read_config
        ⟨some (FileContent.json [("auto_stage_enabled", PyValue.str "not_a_bool")]), []⟩ =
      some (DEFAULT_CONFIG,
        ⟨some (FileContent.json DEFAULT_CONFIG),
         [FileContent.json [("auto_stage_enabled", PyValue.str "not_a_bool")]]⟩,
        false) :=
  (read_config_validation_spec
      ⟨some (FileContent.json [("auto_stage_enabled", PyValue.str "not_a_bool")]), []⟩
      [("auto_stage_enabled", PyValue.str "not_a_bool")] rfl).1 (by decide)

/- ====================  Secure directory materializer (create_directory_safely, 450-608)

The lstat-level filesystem is a finite association map from absolute paths to nodes
(most recent entry wins, so an update is a cons).  Directories carry owner uid and
permission bits.  The embedding covers the sequential, race-free runs the static
map can express: `mkdir` on an absent path succeeds (the `FileExistsError` arm is
the benign concurrent race), the pre-chmod re-check cannot observe a swap, and
`chmod` succeeds (its `NotImplementedError` arm is the symlink race; the
best-effort `OSError` warning arm is not taken).  Ownership checking is available
(POSIX). -/

inductive FsNode where
  | dir (uid : Nat) (mode : Nat)
  | file
  | symlink
  deriving DecidableEq

abbrev DirFS := List (PathC × FsNode)

def fsGet (fs : DirFS) (p : PathC) : Option FsNode :=
  fs.lookup p

def fsSet (fs : DirFS) (p : PathC) (n : FsNode) : DirFS :=
  (p, n) :: fs

def isRealDir : Option FsNode → Bool
  | some (FsNode.dir _ _) => true
  | _ => false

/-- The parent re-validation loop (cli.py lines 546-559): every shallower component
must still exist and not have become a symlink. -/
def check_parents (fs : DirFS) : List PathC → Except String Unit
  | [] => Except.ok ()
  | q :: rest =>
    match fsGet fs q with
    | none => Except.error "Parent path disappeared"
    | some FsNode.symlink => Except.error "Parent path became symlink"
    | some _ => check_parents fs rest

/-- One iteration of the component loop of `create_directory_safely` (cli.py lines
505-606): pre-creation lstat (rejecting existing symlinks), mkdir if absent,
post-creation lstat with symlink and directory checks, re-validation of all
shallower components, ownership check for created components and the final target,
and the permission hardening of the final target (with the pre-chmod symlink
re-check). -/
def process_component (uid mode : Nat) (harden_permissions : Bool) (directory : PathC)
    (st : DirFS × List PathC × Nat) (component : PathC) :
    Except String (DirFS × List PathC × Nat) :=
  let pre := fsGet st.1 component
  if pre = some FsNode.symlink then Except.error "Path contains symlink"
  else
    let existed_before := pre.isSome
    let fs := if existed_before then st.1 else fsSet st.1 component (FsNode.dir uid mode)
    let created := if existed_before then st.2.1 else component :: st.2.1
    match fsGet fs component with
    | none => Except.error "Path disappeared during creation"
    | some info =>
      if info = FsNode.symlink then Except.error "Path is a symlink"
      else
        match info with
        | FsNode.dir duid dmode =>
          match check_parents fs ((strictInits component).dropLast) with
          | Except.error e => Except.error e
          | Except.ok _ =>
            if (component ∈ created ∨ component = directory) ∧ duid ≠ uid then
              Except.error "Directory owned by different user"
            else if harden_permissions ∧ component = directory ∧ dmode &&& 0o022 ≠ 0 then
              match fsGet fs directory with
              | none => Except.error "Path disappeared before chmod"
              | some FsNode.symlink => Except.error "Path became symlink before chmod"
              | some _ =>
                  Except.ok (fsSet fs directory (FsNode.dir duid mode), created, st.2.2 + 1)
            else Except.ok (fs, created, st.2.2)
        | _ => Except.error "Path exists but is not a directory"

/-- Embedding of `create_directory_safely` (cli.py lines 450-608): walk the
components from the root to the target, returning the verified path, the resulting
filesystem, and how many `chmod` permission changes were performed. -/
def create_directory_safely (fs : DirFS) (uid : Nat) (directory : PathC) (mode : Nat)
    (harden_permissions : Bool) : Except String (PathC × DirFS × Nat) :=
  match (strictInits directory).foldlM
      (process_component uid mode harden_permissions directory) (fs, [], 0) with
  | Except.error e => Except.error e
  | Except.ok st => Except.ok (directory, st.1, st.2.2)

theorem mem_strictInits (p q : List String) :
    q ∈ strictInits p ↔ q ≠ [] ∧ q <+: p := by
  induction p generalizing q with
  | nil =>
    simp only [strictInits, List.not_mem_nil, false_iff, not_and]
    intro hne hpre
    exact hne (List.prefix_nil.mp hpre)
  | cons c rest ih =>
    simp only [strictInits, List.mem_cons, List.mem_map]
    constructor
    · rintro (rfl | ⟨r, hr, rfl⟩)
      · exact ⟨by simp, ⟨rest, rfl⟩⟩
      · obtain ⟨hne, hpre⟩ := (ih r).mp hr
        exact ⟨by simp, List.cons_prefix_cons.mpr ⟨rfl, hpre⟩⟩
    · rintro ⟨hne, hpre⟩
      cases q with
      | nil => exact absurd rfl hne
      | cons a q' =>
        obtain ⟨rfl, hq'⟩ := List.cons_prefix_cons.mp hpre
        cases q' with
        | nil => exact Or.inl rfl
        | cons b q'' => exact Or.inr ⟨b :: q'', (ih (b :: q'')).mpr ⟨by simp, hq'⟩, rfl⟩

theorem check_parents_ok (fs : DirFS) (l : List PathC)
    (h : ∀ q ∈ l, isRealDir (fsGet fs q) = true) : check_parents fs l = Except.ok () := by
  induction l with
  | nil => rfl
  | cons q rest ih =>
    have hq := h q (List.mem_cons_self q rest)
    cases hfq : fsGet fs q with
    | none => rw [hfq] at hq; simp [isRealDir] at hq
    | some n =>
      cases n with
      | dir u m =>
        simp only [check_parents, hfq]
        exact ih (fun r hr => h r (List.mem_cons_of_mem q hr))
      | file => rw [hfq] at hq; simp [isRealDir] at hq
      | symlink => rw [hfq] at hq; simp [isRealDir] at hq

theorem foldlM_ok_of_id {α β : Type} (f : β → α → Except String β) (l : List α) (init : β)
    (h : ∀ x ∈ l, f init x = Except.ok init) : l.foldlM f init = Except.ok init := by
  induction l with
  | nil => rfl
  | cons a l ih =>
    simp only [List.foldlM]
    rw [h a (List.mem_cons_self a l)]
    exact ih (fun x hx => h x (List.mem_cons_of_mem a hx))

/-- A component that already is a real directory (with safe ownership and
permissions when it is the final target, and real-directory ancestors) passes its
loop iteration without any filesystem change, creation, or chmod. -/
theorem process_component_noop (uid mode : Nat) (harden : Bool) (directory : PathC)
    (fs : DirFS) (component : PathC)
    (hc : isRealDir (fsGet fs component) = true)
    (hanc : ∀ q ∈ (strictInits component).dropLast, isRealDir (fsGet fs q) = true)
    (hown : component = directory →
      ∃ dm, fsGet fs component = some (FsNode.dir uid dm) ∧ dm &&& 0o022 = 0) :
    process_component uid mode harden directory (fs, [], 0) component =
      Except.ok (fs, [], 0) := by
  obtain ⟨duid, dmode, hfq⟩ : ∃ u m, fsGet fs component = some (FsNode.dir u m) := by
    cases h : fsGet fs component with
    | none => rw [h] at hc; exact absurd hc (by simp [isRealDir])
    | some n =>
      cases n with
      | dir u m => exact ⟨u, m, rfl⟩
      | file => rw [h] at hc; exact absurd hc (by simp [isRealDir])
      | symlink => rw [h] at hc; exact absurd hc (by simp [isRealDir])
  have hpar := check_parents_ok fs ((strictInits component).dropLast) hanc
  by_cases hdir : component = directory
  · subst hdir
    obtain ⟨dm, hdm, hdmode⟩ := hown rfl
    rw [hfq] at hdm
    simp only [Option.some.injEq, FsNode.dir.injEq] at hdm
    obtain ⟨rfl, rfl⟩ := hdm
    simp [process_component, hfq, hpar, hdmode]
  · simp [process_component, hfq, hpar, hdir]

/-- A target directory that already exists correctly (real non-symlink directories
along the whole chain, target owned by the caller with no group/other-write bits)
is verified with no error, no creation, no chmod, and no filesystem change. -/
theorem create_directory_safely_noop (fs : DirFS) (uid : Nat) (directory : PathC)
    (mode : Nat) (harden : Bool) (mdir : Nat)
    (hanc : ∀ q ∈ strictInits directory, isRealDir (fsGet fs q) = true)
    (hown : fsGet fs directory = some (FsNode.dir uid mdir))
    (hmode : mdir &&& 0o022 = 0) :
    create_directory_safely fs uid directory mode harden =
      Except.ok (directory, fs, 0) := by
  have hstep : ∀ q ∈ strictInits directory,
      process_component uid mode harden directory (fs, [], 0) q = Except.ok (fs, [], 0) := by
    intro q hq
    obtain ⟨hqne, hqpre⟩ := (mem_strictInits directory q).mp hq
    apply process_component_noop
    · exact hanc q hq
    · intro r hr
      have hrq : r ∈ strictInits q := (List.dropLast_sublist _).subset hr
      obtain ⟨hrne, hrpre⟩ := (mem_strictInits q r).mp hrq
      exact hanc r ((mem_strictInits directory r).mpr ⟨hrne, hrpre.trans hqpre⟩)
    · intro hqd
      subst hqd
      exact ⟨mdir, hown, hmode⟩
  unfold create_directory_safely
  rw [foldlM_ok_of_id _ _ _ hstep]

/-- C7: on a directory that already exists, is a real (non-symlink) directory along
its whole chain, is owned by the calling principal, and has no group/other-write
permission bits, `create_directory_safely` succeeds returning the directory with
zero chmod calls and the filesystem unchanged — and invoking it a second time
returns the same path with no error and again no permission change. -/
theorem create_directory_safely_idempotent (fs : DirFS) (uid : Nat) (directory : PathC)
    (mode : Nat) (harden : Bool) (mdir : Nat)
    (hanc : ∀ q ∈ strictInits directory, isRealDir (fsGet fs q) = true)
    (hown : fsGet fs directory = some (FsNode.dir uid mdir))
    (hmode : mdir &&& 0o022 = 0) :
    create_directory_safely fs uid directory mode harden =
      Except.ok (directory, fs, 0) ∧
    ∀ fs1 chm1,
      create_directory_safely fs uid directory mode harden =
        Except.ok (directory, fs1, chm1) →
      create_directory_safely fs1 uid directory mode harden =
        Except.ok (directory, fs1, 0) := by
  have h1 := create_directory_safely_noop fs uid directory mode harden mdir hanc hown hmode
  refine ⟨h1, ?_⟩
  intro fs1 chm1 heq
  rw [h1] at heq
  simp only [Except.ok.injEq, Prod.mk.injEq, true_and] at heq
  obtain ⟨hfs, _⟩ := heq
  subst hfs
  exact h1

/-- Concrete run of C7: an existing, correctly-owned `~/home/user/shots` chain with
0o755 permissions is verified unchanged, with zero chmod calls. -/
theorem create_directory_safely_idempotent_witness :
    create_directory_safely
        [(["home"], FsNode.dir 0 0o755), (["home", "user"], FsNode.dir 1000 0o755),
         (["home", "user", "shots"], FsNode.dir 1000 0o755)]
        1000 ["home", "user", "shots"] 0o755 true =
      Except.ok (["home", "user", "shots"],
        [(["home"], FsNode.dir 0 0o755), (["home", "user"], FsNode.dir 1000 0o755),
         (["home", "user", "shots"], FsNode.dir 1000 0o755)], 0) :=
  (create_directory_safely_idempotent
      [(["home"], FsNode.dir 0 0o755), (["home", "user"], FsNode.dir 1000 0o755),
       (["home", "user", "shots"], FsNode.dir 1000 0o755)]
      1000 ["home", "user", "shots"] 0o755 true 0o755
      (by decide) (by decide) (by decide)).1
